import Mathlib

/-!
Shallow embedding of the BMP decoder in `decode.go` of entooone/go-bmp.

The byte source (`io.Reader`) is modelled as a `List Nat` of byte values; the
decoder consumes it strictly forward.  Fallible Go code returns `DOut`:
`ok` for a normal return, `err` for a returned `error`, and `panic` for a Go
runtime abort (out-of-range slice index or slice bound).  Machine integers are
modelled as `Nat` (with explicit bit masking where the Go code masks) and the
two signed 32-bit header fields go through `int32of`.
-/

namespace Bmp

/-- Error values returned by the decoder.  The Go code returns `fmt.Errorf`
values for the format errors and `io.ErrUnexpectedEOF` for short reads. -/
inductive BmpErr where
  | unexpectedEOF
  | badSignature
  | unsupportedHeader
  | invalidGeometry
  | unsupportedCompression
  | badOffset
  | unsupportedBitDepth
deriving DecidableEq, Repr

/-- Outcome of running a piece of the decoder: a normal result, a returned
error, or a Go runtime abort (index / slice bound violation). -/
inductive DOut (α : Type) where
  | ok (a : α)
  | err (e : BmpErr)
  | panic
deriving DecidableEq, Repr

/-- Length of the decoder scratch buffer: `tmp [3 * 256]byte` in `decoder`. -/
def tmpLen : Nat := 3 * 256

/-- `io.ReadFull` on a finite stream, composed with the wrapping
`if err == io.EOF { err = io.ErrUnexpectedEOF }` that every call site in
decode.go performs: `io.ReadFull` itself reports `ErrUnexpectedEOF` for a
partial read and `EOF` only when nothing was read, and each call site converts
that `EOF` to `ErrUnexpectedEOF`, so a too-short stream always surfaces as
`unexpectedEOF`. -/
def readFullW (n : Nat) (s : List Nat) : DOut (List Nat × List Nat) :=
  if n ≤ s.length then .ok (s.take n, s.drop n) else .err .unexpectedEOF

/-- Little-endian 16-bit load `binary.LittleEndian.Uint16` at offset `i`.
The buffer is the zero-initialised `tmp` array, so bytes past the filled
prefix read as 0, which `List.getD _ _ 0` reproduces. -/
def u16at (t : List Nat) (i : Nat) : Nat :=
  t.getD i 0 + 256 * t.getD (i+1) 0

/-- Little-endian 32-bit load `binary.LittleEndian.Uint32` at offset `i`. -/
def u32at (t : List Nat) (i : Nat) : Nat :=
  t.getD i 0 + 256 * t.getD (i+1) 0 + 65536 * t.getD (i+2) 0 +
    16777216 * t.getD (i+3) 0

/-- Reinterpret an unsigned 32-bit value as `int32` (the Go casts
`int(int32(binary.LittleEndian.Uint32(...)))` for width and height). -/
def int32of (n : Nat) : Int :=
  if n < 2147483648 then (n : Int) else (n : Int) - 4294967296

/-- The allow-list of DIB header lengths in `readHeader`:
`case 40, 52, 60, 96, 108, 112, 120, 124`. -/
def dibOK (n : Nat) : Prop :=
  n = 40 ∨ n = 52 ∨ n = 60 ∨ n = 96 ∨ n = 108 ∨ n = 112 ∨ n = 120 ∨ n = 124

instance (n : Nat) : Decidable (dibOK n) := by unfold dibOK; infer_instance

/-- DIB header length: `binary.LittleEndian.Uint32(d.tmp[14:18])`. -/
def hdrDibLen (s : List Nat) : Nat := u32at s 14

/-- The contents of `d.tmp` once the whole header has been read: the first
`14 + dibLen` stream bytes; every later position still holds the zero the
array was initialised with. -/
def hdrT (s : List Nat) : List Nat := s.take (14 + hdrDibLen s)

/-- Pixel-data offset field: `binary.LittleEndian.Uint32(d.tmp[10:14])`. -/
def hdrOffset (s : List Nat) : Nat := u32at (hdrT s) 10

/-- Signed width: `int(int32(binary.LittleEndian.Uint32(d.tmp[18:22])))`. -/
def hdrWidthI (s : List Nat) : Int := int32of (u32at (hdrT s) 18)

/-- Signed height as read from `d.tmp[22:26]`, before the sign fix-up. -/
def hdrHeightI (s : List Nat) : Int := int32of (u32at (hdrT s) 22)

/-- `d.topDown`: set when the raw height is negative. -/
def hdrTopDown (s : List Nat) : Bool := decide (hdrHeightI s < 0)

/-- `d.height` after `d.height, d.topDown = -d.height, true`. -/
def hdrAbsHeight (s : List Nat) : Nat := (hdrHeightI s).natAbs

/-- Bits per pixel: `binary.LittleEndian.Uint16(d.tmp[28:30])`. -/
def hdrBpp (s : List Nat) : Nat := u16at (hdrT s) 28

/-- Compression code: `binary.LittleEndian.Uint16(d.tmp[30:34])` (a 16-bit
load, so only bytes 30 and 31 are used). -/
def hdrCompression (s : List Nat) : Nat := u16at (hdrT s) 30

/-- XOR of the three channel masks at `tmp[54:66]`; for a 40-byte DIB header
those bytes were never filled and read as zero. -/
def hdrMask (s : List Nat) : Nat :=
  u32at (hdrT s) 54 ^^^ u32at (hdrT s) 58 ^^^ u32at (hdrT s) 62

/-- Compression code after the trivial-bitfield rule.  The Go condition is

  compression == 3 && dibLen > infoHeaderLen &&
    (d.bpp == 16 && mask == 0x7fff) ||
    (d.bpp == 32 && mask == 0x00ffffff)

and in Go `&&` binds tighter than `||`, so it parses as
`(compression == 3 && dibLen > 40 && bpp == 16 && mask == 0x7fff) ||
 (bpp == 32 && mask == 0x00ffffff)`; the embedding keeps that exact grouping. -/
def hdrCompEff (s : List Nat) : Nat :=
  if (hdrCompression s = 3 ∧ hdrDibLen s > 40 ∧ hdrBpp s = 16 ∧ hdrMask s = 0x7fff)
      ∨ (hdrBpp s = 32 ∧ hdrMask s = 0x00ffffff)
  then 0 else hdrCompression s

/-- Declared color-table entry count: `binary.LittleEndian.Uint32(d.tmp[46:50])`. -/
def hdrNumColor (s : List Nat) : Nat := u32at (hdrT s) 46

/-- The fields `readHeader` stores on the decoder. -/
structure Header where
  topDown : Bool
  width : Nat
  height : Nat
  bpp : Nat
  numColor : Nat
deriving DecidableEq, Repr

/-- The header value produced by a successful `readHeader` run on `s`. -/
def mkHdr (s : List Nat) : Header :=
  ⟨hdrTopDown s, (hdrWidthI s).toNat, hdrAbsHeight s, hdrBpp s, hdrNumColor s⟩

/-- `(*decoder).readHeader`: reads 18 bytes (file header plus DIB length),
checks the `BM` signature (bytes 66 77), checks the DIB length allow-list,
reads the rest of the DIB header, extracts and validates geometry, applies the
trivial-compression rule, and validates the offset field per bit depth.
Returns the parsed fields and the unread remainder of the stream. -/
def readHeader (s : List Nat) : DOut (Header × List Nat) :=
  if s.length < 18 then .err .unexpectedEOF
  else if s.getD 0 0 ≠ 66 ∨ s.getD 1 0 ≠ 77 then .err .badSignature
  else if ¬ dibOK (hdrDibLen s) then .err .unsupportedHeader
  else if s.length < 14 + hdrDibLen s then .err .unexpectedEOF
  else if hdrWidthI s ≤ 0 ∨ hdrAbsHeight s = 0 then .err .invalidGeometry
  else if hdrCompEff s ≠ 0 then .err .unsupportedCompression
  else if hdrBpp s = 1 ∨ hdrBpp s = 4 ∨ hdrBpp s = 8 then
    (if hdrOffset s = 14 + hdrDibLen s + hdrNumColor s * 4
      then .ok (mkHdr s, s.drop (14 + hdrDibLen s))
      else .err .badOffset)
  else if hdrBpp s = 16 ∨ hdrBpp s = 24 ∨ hdrBpp s = 32 then
    (if hdrOffset s = 14 + hdrDibLen s
      then .ok (mkHdr s, s.drop (14 + hdrDibLen s))
      else .err .badOffset)
  else .err .unsupportedBitDepth

/-- The color model stored in `image.Config`: an indexed palette of RGBA
quadruples, or `color.RGBAModel` for the direct-color depths. -/
inductive ColorModel where
  | palette (entries : List (Nat × Nat × Nat × Nat))
  | rgbaModel
deriving DecidableEq, Repr

/-- `image.Config`: color model plus dimensions. -/
structure Config where
  model : ColorModel
  width : Nat
  height : Nat
deriving DecidableEq, Repr

/-- The palette built from `numColor` on-disk BGRX quads:
`colorTable[i] = color.RGBA{tmp[4i+2], tmp[4i+1], tmp[4i], 0xff}`. -/
def buildPalette (q : List Nat) (n : Nat) : List (Nat × Nat × Nat × Nat) :=
  (List.range n).map (fun i => (q.getD (4*i+2) 0, q.getD (4*i+1) 0, q.getD (4*i) 0, 0xff))

/-- `(*decoder).decodeConfig`: runs `readHeader`; for the indexed depths it
reads `numColor*4` color-table bytes into `d.tmp[:d.numColor*4]` — the slice
expression is evaluated before the read, so a count above `tmpLen/4 = 192`
entries makes Go abort on the slice bound — and builds the palette; for the
direct depths the model is `color.RGBAModel`. -/
def decodeConfig (s : List Nat) : DOut (Header × Config × List Nat) :=
  match readHeader s with
  | .err e => .err e
  | .panic => .panic
  | .ok (hd, rest) =>
    if hd.bpp = 1 ∨ hd.bpp = 4 ∨ hd.bpp = 8 then
      if hd.numColor * 4 ≤ tmpLen then
        match readFullW (hd.numColor * 4) rest with
        | .err e => .err e
        | .panic => .panic
        | .ok (q, rest2) =>
          .ok (hd, ⟨.palette (buildPalette q hd.numColor), hd.width, hd.height⟩, rest2)
      else .panic
    else .ok (hd, ⟨.rgbaModel, hd.width, hd.height⟩, rest)

/-- Sub-byte palette-index extraction, exactly the expression
`(d.tmp[i] & (0xff &^ (0xff >> d.bpp) >> (d.bpp * j))) >> (8 - (d.bpp * (j + 1)))`.
In Go `&^`, `>>` and `&` share one precedence level and associate to the left,
so the mask is `(0xff &^ (0xff >> bpp)) >> (bpp * j)`; and for an operand
below `0xff` the AND-NOT with `0xff` is the XOR used here. -/
def extractIdx (b bpp j : Nat) : Nat :=
  (b &&& ((0xff ^^^ (0xff >>> bpp)) >>> (bpp * j))) >>> (8 - bpp * (j + 1))

/-- Performs a list of `index ↦ value` stores into a row slice, aborting like
Go does on the first index at or past the slice length. -/
def applyWrites (ws : List (Nat × Nat)) (p : List Nat) : DOut (List Nat) :=
  match ws with
  | [] => .ok p
  | (idx, v) :: rest =>
    if idx < p.length then applyWrites rest (p.set idx v) else .panic

/-- The per-row body of `(*decoder).decodePalleted` acting on the destination
row slice `p` (length `d.width`, freshly zeroed by `image.NewPaletted`).
Small-width branch: `p[j] = extract(tmp[0], j)` for `j < width`.
Main branch: for `i < ((width+1)*bpp)/8` and `j < 8/bpp` it stores
`p[i*2+j] = extract(tmp[i], j)` — the destination uses the literal `i*2+j`
from the source. -/
def decodePalletedRow (w bpp : Nat) (row : List Nat) : DOut (List Nat) :=
  if w < 8 / bpp then
    applyWrites
      ((List.range w).map (fun j => (j, extractIdx (row.getD 0 0) bpp j)))
      (List.replicate w 0)
  else
    applyWrites
      ((List.range ((w + 1) * bpp / 8)).flatMap (fun i =>
        (List.range (8 / bpp)).map (fun j => (i * 2 + j, extractIdx (row.getD i 0) bpp j))))
      (List.replicate w 0)

/-- One 16-bit pixel of `decode16`, from the two row bytes `lb = tmp[j]` and
`hb = tmp[j+1]`:

  p[i]   = (tmp[j+1] & 0x3e) >> 1
  p[i+1] = ((tmp[j] & 0x07) << 3) | ((tmp[j+1] & 0xc0) >> 6)
  p[i+2] = (tmp[j] & 0xf8) >> 3
  p[i+3] = 0xff
-/
def decode16Pixel (lb hb : Nat) : Nat × Nat × Nat × Nat :=
  ((hb &&& 0x3e) >>> 1,
   ((lb &&& 0x07) <<< 3) ||| ((hb &&& 0xc0) >>> 6),
   (lb &&& 0xf8) >>> 3,
   0xff)

/-- The RGBA row written by one iteration of the `decode16` row loop. -/
def decode16Row (w : Nat) (row : List Nat) : List Nat :=
  (List.range w).flatMap (fun k =>
    let px := decode16Pixel (row.getD (2*k) 0) (row.getD (2*k+1) 0)
    [px.1, px.2.1, px.2.2.1, px.2.2.2])

/-- The RGBA row written by one iteration of the `decode24` row loop:
`p[i] = tmp[j+2]; p[i+1] = tmp[j+1]; p[i+2] = tmp[j]; p[i+3] = 0xff`. -/
def decode24Row (w : Nat) (row : List Nat) : List Nat :=
  (List.range w).flatMap (fun k =>
    [row.getD (3*k+2) 0, row.getD (3*k+1) 0, row.getD (3*k) 0, 0xff])

/-- Padded on-disk row size of the indexed depths: `(width*bpp+31)/32*4`. -/
def rowBytesPal (w bpp : Nat) : Nat := (w * bpp + 31) / 32 * 4

/-- Padded on-disk row size of `decode16`: `(width*2+3) &^ 3`. -/
def rowBytes16 (w : Nat) : Nat := (w * 2 + 3) / 4 * 4

/-- Padded on-disk row size of `decode24`: `(width*3+3) &^ 3`. -/
def rowBytes24 (w : Nat) : Nat := (w * 3 + 3) / 4 * 4

/-- The shared row loop of `decodePalleted`, `decode16` and `decode24`:
`ys` is the sequence of destination row indices (`h-1 … 0`, or `0 … h-1` when
top-down); each iteration slices `d.tmp[:rowBytes]` (a Go abort when that
exceeds the 768-byte array), reads one padded row, decodes it and stores it at
destination row `y`. -/
def decodeRowsAux (rowBytes : Nat) (rowDec : List Nat → DOut (List Nat))
    (s : List Nat) (ys : List Nat) (acc : List (List Nat)) :
    DOut (List (List Nat) × List Nat) :=
  match ys with
  | [] => .ok (acc, s)
  | y :: ys2 =>
    if rowBytes ≤ tmpLen then
      match readFullW rowBytes s with
      | .err e => .err e
      | .panic => .panic
      | .ok (row, s2) =>
        match rowDec row with
        | .err e => .err e
        | .panic => .panic
        | .ok r => decodeRowsAux rowBytes rowDec s2 ys2 (acc.set y r)
    else .panic

/-- Row iteration entry point: `y0, y1, dy := d.height-1, -1, -1`, flipped to
`0, d.height, 1` when top-down, over a freshly zeroed pixel buffer of
`height` rows of `stride` bytes. -/
def decodeRows (rowBytes : Nat) (rowDec : List Nat → DOut (List Nat))
    (td : Bool) (h stride : Nat) (s : List Nat) :
    DOut (List (List Nat) × List Nat) :=
  decodeRowsAux rowBytes rowDec s
    (if td then List.range h else (List.range h).reverse)
    (List.replicate h (List.replicate stride 0))

/-- `(*decoder).decodePalleted` after the config step. -/
def decodePalleted (w bpp : Nat) (td : Bool) (h : Nat) (s : List Nat) :
    DOut (List (List Nat) × List Nat) :=
  decodeRows (rowBytesPal w bpp) (decodePalletedRow w bpp) td h w s

/-- `(*decoder).decode16` after the config step (stride `4*width`). -/
def decode16 (w : Nat) (td : Bool) (h : Nat) (s : List Nat) :
    DOut (List (List Nat) × List Nat) :=
  decodeRows (rowBytes16 w) (fun r => .ok (decode16Row w r)) td h (4 * w) s

/-- `(*decoder).decode24` after the config step (stride `4*width`). -/
def decode24 (w : Nat) (td : Bool) (h : Nat) (s : List Nat) :
    DOut (List (List Nat) × List Nat) :=
  decodeRows (rowBytes24 w) (fun r => .ok (decode24Row w r)) td h (4 * w) s

/-- Store the bytes `vs` at consecutive positions of `l` starting at `i`
(the effect of `io.ReadFull` filling an aliased sub-slice). -/
def setSeq (l : List Nat) (i : Nat) (vs : List Nat) : List Nat :=
  match vs with
  | [] => l
  | v :: vs2 => setSeq (l.set i v) (i+1) vs2

/-- The byte-swap loop of `decode32`,
`for i := 0; i < d.width*4; i++ { p[i], p[i+2] = p[i+2], p[i] }`,
run with `fuel` iterations remaining; each access `p[i]` / `p[i+2]` must be
below the slice length or Go aborts. -/
def swapLoopAux (p : List Nat) (i : Nat) : Nat → DOut (List Nat)
  | 0 => .ok p
  | n+1 =>
    if i < p.length ∧ i + 2 < p.length then
      swapLoopAux ((p.set i (p.getD (i+2) 0)).set (i+2) (p.getD i 0)) (i+1) n
    else .panic

/-- The full swap loop over a row slice of length `limit = width*4`. -/
def swapLoop (p : List Nat) (limit : Nat) : DOut (List Nat) :=
  swapLoopAux p 0 limit

/-- The row loop of `(*decoder).decode32` over the flat `Pix` buffer
(`S = stride = width*4`, `pix.length = S*height`).  For destination row `y`
the code takes `p := Pix[y*S : (y+1)*S]` (length `S`, capacity
`pix.length - y*S`) and reads into `p[y*S : y*(S+1)]` — a sub-slice of `p`
whose bounds are checked against the capacity, hence the guard below; the
bytes land at flat position `2*y*S`.  Then the swap loop runs over `p`. -/
def decode32Aux (S : Nat) (s : List Nat) (ys : List Nat) (pix : List Nat) :
    DOut (List Nat × List Nat) :=
  match ys with
  | [] => .ok (pix, s)
  | y :: ys2 =>
    if y * (S + 1) ≤ pix.length - y * S then
      match readFullW (y * (S + 1) - y * S) s with
      | .err e => .err e
      | .panic => .panic
      | .ok (bytes, s2) =>
        let pix2 := setSeq pix (y * S + y * S) bytes
        match swapLoop ((pix2.drop (y * S)).take S) S with
        | .err e => .err e
        | .panic => .panic
        | .ok row => decode32Aux S s2 ys2 (setSeq pix2 (y * S) row)
    else .panic

/-- `(*decoder).decode32` after the config step: fresh zeroed NRGBA buffer of
`width*4*height` bytes, rows iterated bottom-up or top-down. -/
def decode32 (w h : Nat) (td : Bool) (s : List Nat) :
    DOut (List Nat × List Nat) :=
  decode32Aux (w * 4) s
    (if td then List.range h else (List.range h).reverse)
    (List.replicate (w * 4 * h) 0)

/-- The decoded image: an indexed buffer with its palette, an RGBA buffer
(rows of 4-byte pixels), or the flat NRGBA buffer of `decode32`. -/
inductive Image where
  | paletted (pal : List (Nat × Nat × Nat × Nat)) (rows : List (List Nat))
  | rgba (rows : List (List Nat))
  | nrgba (pix : List Nat)
deriving DecidableEq, Repr

/-- `(*decoder).decode`: config step, then dispatch on `d.bpp`.  For the
indexed depths the Go code asserts `d.config.ColorModel.(color.Palette)`,
which would abort on any other model. -/
def decode (s : List Nat) : DOut (Image × Config) :=
  match decodeConfig s with
  | .err e => .err e
  | .panic => .panic
  | .ok (hd, cfg, rest) =>
    if hd.bpp = 1 ∨ hd.bpp = 4 ∨ hd.bpp = 8 then
      match cfg.model with
      | .palette pal =>
        (match decodePalleted hd.width hd.bpp hd.topDown hd.height rest with
        | .err e => .err e
        | .panic => .panic
        | .ok (rows, _) => .ok (.paletted pal rows, cfg))
      | .rgbaModel => .panic
    else if hd.bpp = 16 then
      match decode16 hd.width hd.topDown hd.height rest with
      | .err e => .err e
      | .panic => .panic
      | .ok (rows, _) => .ok (.rgba rows, cfg)
    else if hd.bpp = 24 then
      match decode24 hd.width hd.topDown hd.height rest with
      | .err e => .err e
      | .panic => .panic
      | .ok (rows, _) => .ok (.rgba rows, cfg)
    else
      match decode32 hd.width hd.height hd.topDown rest with
      | .err e => .err e
      | .panic => .panic
      | .ok (pix, _) => .ok (.nrgba pix, cfg)

/-- Exported `Decode`: returns the image, or the error with a nil image. -/
def Decode (s : List Nat) : DOut Image :=
  match decode s with
  | .ok (img, _) => .ok img
  | .err e => .err e
  | .panic => .panic

/-- Exported `DecodeConfig`: returns the config, or the error. -/
def DecodeConfig (s : List Nat) : DOut Config :=
  match decodeConfig s with
  | .ok (_, cfg, _) => .ok cfg
  | .err e => .err e
  | .panic => .panic

/-!  Concrete input fixtures.  Each is a byte-exact BMP stream; the field
layout is: signature, file size (unchecked), reserved, pixel-data offset,
DIB length, width, height, planes (unchecked), bpp, compression, image size,
resolutions, color count, important colors, then masks / color table / rows
as the depth requires. -/

/-- A complete well-formed 4-bit 2x2 bottom-up file: 54-byte header
(offset 62 = 14 + 40 + 2*4), two palette entries, two padded 4-byte rows.
Exactly 70 bytes long. -/
def goodFile : List Nat :=
  [66,77, 0,0,0,0, 0,0,0,0, 62,0,0,0,
   40,0,0,0, 2,0,0,0, 2,0,0,0, 1,0, 4,0,
   0,0,0,0, 0,0,0,0, 0,0,0,0, 0,0,0,0,
   2,0,0,0, 0,0,0,0,
   10,20,30,0, 40,50,60,0,
   1,0,0,0, 16,0,0,0]

/-- The same image as `goodFile` stored top-down: byte-for-byte identical
except the height field is -2 (bytes 254 255 255 255) and the two on-disk
pixel rows are stored in the opposite order. -/
def goodFileTD : List Nat :=
  [66,77, 0,0,0,0, 0,0,0,0, 62,0,0,0,
   40,0,0,0, 2,0,0,0, 254,255,255,255, 1,0, 4,0,
   0,0,0,0, 0,0,0,0, 0,0,0,0, 0,0,0,0,
   2,0,0,0, 0,0,0,0,
   10,20,30,0, 40,50,60,0,
   16,0,0,0, 1,0,0,0]

/-- A 66-byte header: 52-byte DIB header, 32 bpp, 1x1, offset 66,
compression code 1 (RLE8, not the bitmask code 3), and channel masks
0x00ffffff / 0 / 0 whose XOR is 0x00ffffff. -/
def c2file : List Nat :=
  [66,77, 0,0,0,0, 0,0,0,0, 66,0,0,0,
   52,0,0,0, 1,0,0,0, 1,0,0,0, 1,0, 32,0,
   1,0,0,0, 0,0,0,0, 0,0,0,0, 0,0,0,0,
   0,0,0,0, 0,0,0,0,
   255,255,255,0, 0,0,0,0, 0,0,0,0]

/-- A complete well-formed 32-bit 1x1 bottom-up file: 54-byte header
(offset 54), one 4-byte pixel.  58 bytes, nothing missing. -/
def file32a : List Nat :=
  [66,77, 0,0,0,0, 0,0,0,0, 54,0,0,0,
   40,0,0,0, 1,0,0,0, 1,0,0,0, 1,0, 32,0,
   0,0,0,0, 0,0,0,0, 0,0,0,0, 0,0,0,0,
   0,0,0,0, 0,0,0,0,
   1,2,3,4]

/-- A complete well-formed 32-bit 2x1 top-down file (height field -1),
with its full 8-byte pixel row present. -/
def file32b : List Nat :=
  [66,77, 0,0,0,0, 0,0,0,0, 54,0,0,0,
   40,0,0,0, 2,0,0,0, 255,255,255,255, 1,0, 32,0,
   0,0,0,0, 0,0,0,0, 0,0,0,0, 0,0,0,0,
   0,0,0,0, 0,0,0,0,
   0,0,0,0,0,0,0,0]

/-- A well-formed 54-byte header for an ordinary 8-bit 1x1 image with the
full 256-entry color table declared: offset 1078 = 14 + 40 + 256*4. -/
def hdr8x256 : List Nat :=
  [66,77, 0,0,0,0, 0,0,0,0, 54,4,0,0,
   40,0,0,0, 1,0,0,0, 1,0,0,0, 1,0, 8,0,
   0,0,0,0, 0,0,0,0, 0,0,0,0, 0,0,0,0,
   0,1,0,0, 0,0,0,0]

/-- `hdr8x256` followed by its complete 1024-byte color table. -/
def file8x256 : List Nat := hdr8x256 ++ List.replicate 1024 0

/-- The `goodFile` header alone, with the offset field changed from the
correct 62 to 63; every other field is untouched. -/
def badOffFile : List Nat :=
  [66,77, 0,0,0,0, 0,0,0,0, 63,0,0,0,
   40,0,0,0, 2,0,0,0, 2,0,0,0, 1,0, 4,0,
   0,0,0,0, 0,0,0,0, 0,0,0,0, 0,0,0,0,
   2,0,0,0, 0,0,0,0]

/-! Helper lemmas. -/

theorem readFullW_ok (n : Nat) (s : List Nat) (h : n ≤ s.length) :
    readFullW n s = .ok (s.take n, s.drop n) := by
  unfold readFullW
  exact if_pos h

/-- Running the shared row loop on a stream that is exactly the concatenation
of correctly sized, successfully decoding rows stores decoded row `k` of the
stream at destination index `ys[k]` and consumes the whole stream. -/
theorem decodeRowsAux_chunks (rowBytes : Nat) (rowDec : List Nat → DOut (List Nat))
    (dec : List Nat → List Nat) (htmp : rowBytes ≤ tmpLen) :
    ∀ (ys : List Nat) (chunks : List (List Nat)) (acc : List (List Nat)),
      ys.length = chunks.length →
      (∀ c ∈ chunks, c.length = rowBytes) →
      (∀ c ∈ chunks, rowDec c = .ok (dec c)) →
      decodeRowsAux rowBytes rowDec chunks.flatten ys acc =
        .ok ((ys.zip chunks).foldl (fun a p => a.set p.1 (dec p.2)) acc, []) := by
  intro ys
  induction ys with
  | nil =>
    intro chunks acc hl _ _
    obtain rfl : chunks = [] := List.length_eq_zero.mp hl.symm
    simp [decodeRowsAux]
  | cons y ys ih =>
    intro chunks acc hl hlen hdec
    cases chunks with
    | nil => simp at hl
    | cons c cs =>
      have hc : c.length = rowBytes := hlen c (List.mem_cons_self c cs)
      have hread : readFullW rowBytes (c :: cs).flatten = .ok (c, cs.flatten) := by
        rw [List.flatten_cons]
        rw [readFullW_ok _ _ (by rw [List.length_append, hc]; omega)]
        rw [← hc, List.take_left, List.drop_left]
      simp only [decodeRowsAux, if_pos htmp, hread, hdec c (List.mem_cons_self c cs)]
      rw [ih cs (acc.set y (dec c)) (by simpa using hl)
        (fun x hx => hlen x (List.mem_cons_of_mem c hx))
        (fun x hx => hdec x (List.mem_cons_of_mem c hx))]
      simp [List.zip_cons_cons]

theorem foldr_set_comm (dec : List Nat → List Nat) (p : Nat × List Nat) :
    ∀ (rest : List (Nat × List Nat)) (acc : List (List Nat)),
      (∀ q ∈ rest, p.1 ≠ q.1) →
      rest.foldr (fun q a => a.set q.1 (dec q.2)) (acc.set p.1 (dec p.2)) =
        (rest.foldr (fun q a => a.set q.1 (dec q.2)) acc).set p.1 (dec p.2) := by
  intro rest
  induction rest with
  | nil => intro acc _; rfl
  | cons q rest ih =>
    intro acc hne
    simp only [List.foldr_cons]
    rw [ih acc (fun x hx => hne x (List.mem_cons_of_mem q hx))]
    exact List.set_comm _ _ _ (hne q (List.mem_cons_self q rest))

theorem foldl_eq_foldr_set (dec : List Nat → List Nat) :
    ∀ (pairs : List (Nat × List Nat)) (acc : List (List Nat)),
      pairs.Pairwise (fun p q => p.1 ≠ q.1) →
      pairs.foldl (fun a p => a.set p.1 (dec p.2)) acc =
        pairs.foldr (fun p a => a.set p.1 (dec p.2)) acc := by
  intro pairs
  induction pairs with
  | nil => intro acc _; rfl
  | cons p rest ih =>
    intro acc hpw
    rw [List.foldl_cons, List.foldr_cons]
    rw [ih (acc.set p.1 (dec p.2)) hpw.of_cons]
    exact foldr_set_comm dec p rest acc (fun q hq => List.rel_of_pairwise_cons hpw hq)

theorem zip_nodup_pairwise :
    ∀ (ys : List Nat) (cs : List (List Nat)), ys.Nodup →
      (ys.zip cs).Pairwise (fun p q => p.1 ≠ q.1) := by
  intro ys
  induction ys with
  | nil => intro cs _; simp
  | cons y ys ih =>
    intro cs hnd
    cases cs with
    | nil => simp
    | cons c cs =>
      rw [List.zip_cons_cons]
      refine List.Pairwise.cons ?_ (ih cs hnd.of_cons)
      rintro ⟨a, b⟩ hq
      have ha : a ∈ ys := (List.of_mem_zip hq).1
      have hy : y ∉ ys := (List.nodup_cons.mp hnd).1
      intro he
      have hya : y = a := he
      exact hy (by rwa [hya])

theorem zip_rev (l₁ : List Nat) :
    ∀ (l₂ : List (List Nat)), l₁.length = l₂.length →
      l₁.reverse.zip l₂.reverse = (l₁.zip l₂).reverse := by
  induction l₁ with
  | nil =>
    intro l₂ h
    obtain rfl : l₂ = [] := List.length_eq_zero.mp h.symm
    rfl
  | cons a t ih =>
    intro l₂ h
    cases l₂ with
    | nil => simp at h
    | cons b t₂ =>
      simp only [List.reverse_cons]
      have hlen : t.reverse.length = t₂.reverse.length := by
        simp only [List.length_reverse]
        simpa using h
      rw [List.zip_append hlen, ih t₂ (by simpa using h)]
      simp

/-- Element lookup inside a `flatMap` over `List.range'` whose chunks all have
the same length `L`. -/
theorem flatMap_range_getD (f : Nat → List Nat) (L : Nat)
    (hL : ∀ i, (f i).length = L) (r : Nat) (hr : r < L) :
    ∀ (n a k : Nat), k < n →
      ((List.range' a n).flatMap f).getD (L * k + r) 0 = (f (a + k)).getD r 0 := by
  intro n
  induction n with
  | zero => intro a k hk; exact absurd hk (Nat.not_lt_zero k)
  | succ m ih =>
    intro a k hk
    rw [List.range'_succ]
    cases k with
    | zero =>
      simp only [List.flatMap_cons]
      rw [List.getD_append _ _ _ _ (by rw [hL a]; omega)]
      simp
    | succ j =>
      simp only [List.flatMap_cons]
      rw [List.getD_append_right _ _ _ _ (by rw [hL a, Nat.mul_succ]; omega)]
      rw [hL a]
      rw [show L * (j + 1) + r - L = L * j + r by rw [Nat.mul_succ]; omega]
      rw [show a + (j + 1) = (a + 1) + j by omega]
      exact ih (a + 1) j (by omega)

/-! Claim theorems. -/

/-- C1: the claim says Decode returns the full image with no error on every
input that passes header validation and carries complete pixel data, in
particular for 32-bit inputs.  It does not: on `file32a` — a complete,
well-formed 1x1 32-bit file whose config step succeeds — `decode32` runs the
byte-swap loop past the end of the 4-byte row slice and Go aborts, so Decode
never returns at all. -/
theorem c1_decode32_aborts :
    decodeConfig file32a =
      .ok (⟨false, 1, 1, 32, 0⟩, ⟨.rgbaModel, 1, 1⟩, [1, 2, 3, 4]) ∧
    Decode file32a = .panic := by decide

/-- C2: the claim says a nonzero compression code is rejected unless
compression = 3 AND dibLen > 40 AND the mask XOR matches.  In the Go source
`&&` binds tighter than `||`, so for bpp = 32 the mask test alone enables the
carve-out: `c2file` has compression code 1 (not 3) yet `readHeader` accepts
it as uncompressed instead of failing with the unsupported-compression
error. -/
theorem c2_carveout_misgrouped :
    hdrCompression c2file = 1 ∧ hdrBpp c2file = 32 ∧ hdrDibLen c2file = 52 ∧
    hdrMask c2file = 0x00ffffff ∧
    readHeader c2file = .ok (⟨false, 1, 1, 32, 0⟩, []) := by decide

/-- C3: the claim says a pure-blue 16-bit pixel decodes to B = 0xf8 (the
5-bit value left-shifted by 3).  The code right-shifts instead: with only the
blue field bits of the source word set (low byte 0xf8) the pixel decodes to
B = 0x1f, and no 16-bit source pixel whatsoever can produce a blue value
of 0xf8, because `(lb & 0xf8) >> 3` is at most 31. -/
theorem c3_blue_not_rescaled :
    decode16Pixel 0xf8 0 = (0, 0, 0x1f, 0xff) ∧
    ∀ lb hb : Nat, (decode16Pixel lb hb).2.2.1 ≠ 0xf8 := by
  refine ⟨by decide, fun lb hb => ?_⟩
  show (lb &&& 0xf8) >>> 3 ≠ 0xf8
  have h0 : lb &&& 0xf8 ≤ 0xf8 := Nat.and_le_right
  have h1 : (lb &&& 0xf8) >>> 3 ≤ 31 := by
    rw [Nat.shiftRight_eq_div_pow]
    calc (lb &&& 0xf8) / 2 ^ 3 ≤ 0xf8 / 2 ^ 3 := Nat.div_le_div_right h0
    _ = 31 := by norm_num
  omega

/-- C4: the claim says sub-pixel group `j` of source byte `i` lands at
destination index `i*(8/bpp) + j`.  The code hardcodes `p[i*2+j]`: for a
16-pixel 1-bit row whose second source byte is 0xff the ones land at
positions 2..9 instead of 8..15, and for an 8-bit row the store at `p[i*2]`
runs past the row and Go aborts. -/
theorem c4_destination_misindexed :
    decodePalletedRow 16 1 [0, 255, 0, 0] =
      .ok [0, 0, 1, 1, 1, 1, 1, 1, 1, 1, 0, 0, 0, 0, 0, 0] ∧
    decodePalletedRow 16 1 [0, 255, 0, 0] ≠
      .ok [0, 0, 0, 0, 0, 0, 0, 0, 1, 1, 1, 1, 1, 1, 1, 1] ∧
    decodePalletedRow 3 8 [1, 2, 3, 0] = .panic := by decide

/-- C5: two inputs identical except for the sign of the height field (hence
the `topDown` flag) and correspondingly reversed on-disk row order decode to
identical pixel buffers.  First conjunct: the shared row loop run top-down
over any list of correctly sized, successfully decoding rows equals the
bottom-up run over the reversed row list.  Second conjunct: the concrete
top-down file `goodFileTD` (height -2, rows swapped) decodes byte-for-byte
identically to the bottom-up `goodFile`. -/
theorem c5_row_order_equiv (rowBytes : Nat) (rowDec : List Nat → DOut (List Nat))
    (dec : List Nat → List Nat) (stride : Nat) (rows : List (List Nat))
    (htmp : rowBytes ≤ tmpLen)
    (hlen : ∀ r ∈ rows, r.length = rowBytes)
    (hdec : ∀ r ∈ rows, rowDec r = .ok (dec r)) :
    decodeRows rowBytes rowDec true rows.length stride rows.flatten =
      decodeRows rowBytes rowDec false rows.length stride rows.reverse.flatten ∧
    decode goodFileTD = decode goodFile := by
  constructor
  · have e1 : decodeRows rowBytes rowDec true rows.length stride rows.flatten
        = decodeRowsAux rowBytes rowDec rows.flatten (List.range rows.length)
            (List.replicate rows.length (List.replicate stride 0)) := rfl
    have e2 : decodeRows rowBytes rowDec false rows.length stride rows.reverse.flatten
        = decodeRowsAux rowBytes rowDec rows.reverse.flatten
            ((List.range rows.length).reverse)
            (List.replicate rows.length (List.replicate stride 0)) := rfl
    rw [e1, e2]
    rw [decodeRowsAux_chunks rowBytes rowDec dec htmp (List.range rows.length) rows _
      (by simp) hlen hdec]
    rw [decodeRowsAux_chunks rowBytes rowDec dec htmp
      ((List.range rows.length).reverse) rows.reverse _ (by simp)
      (fun r hr => hlen r (List.mem_reverse.mp hr))
      (fun r hr => hdec r (List.mem_reverse.mp hr))]
    rw [zip_rev (List.range rows.length) rows (by simp)]
    rw [List.foldl_reverse]
    rw [foldl_eq_foldr_set dec ((List.range rows.length).zip rows) _
      (zip_nodup_pairwise _ _ (List.nodup_range _))]
  · decide

/-- C5 witness: the general equivalence applied to the two rows of
`goodFile`, together with the concrete file pair. -/
theorem c5_row_order_equiv_witness :
    decodeRows 4 (decodePalletedRow 2 4) true 2 2
        ([[1, 0, 0, 0], [16, 0, 0, 0]].flatten) =
      decodeRows 4 (decodePalletedRow 2 4) false 2 2
        ([[1, 0, 0, 0], [16, 0, 0, 0]].reverse.flatten) ∧
    decode goodFileTD = decode goodFile :=
  c5_row_order_equiv 4 (decodePalletedRow 2 4)
    (fun r => [(r.getD 0 0 &&& 0xf0) >>> 4, r.getD 0 0 &&& 0x0f]) 2
    [[1, 0, 0, 0], [16, 0, 0, 0]] (by decide) (by decide) (by decide)

/-- C6: whenever the header reaches the offset validation (signature, DIB
length, geometry, compression all fine) and the offset field differs from
`14 + dibLen + numColor*4` for the indexed depths, respectively
`14 + dibLen` for the direct depths, `readHeader` fails with the bad-offset
error. -/
theorem c6_bad_offset_rejected (s : List Nat)
    (hdib : dibOK (hdrDibLen s))
    (hlen : 14 + hdrDibLen s ≤ s.length)
    (hsig : s.getD 0 0 = 66 ∧ s.getD 1 0 = 77)
    (hgeom : 0 < hdrWidthI s ∧ hdrAbsHeight s ≠ 0)
    (hcomp : hdrCompEff s = 0)
    (hoff : ((hdrBpp s = 1 ∨ hdrBpp s = 4 ∨ hdrBpp s = 8) ∧
              hdrOffset s ≠ 14 + hdrDibLen s + hdrNumColor s * 4) ∨
            ((hdrBpp s = 16 ∨ hdrBpp s = 24 ∨ hdrBpp s = 32) ∧
              hdrOffset s ≠ 14 + hdrDibLen s)) :
    readHeader s = .err .badOffset := by
  have h40 : 40 ≤ hdrDibLen s := by
    rcases hdib with h | h | h | h | h | h | h | h <;> omega
  unfold readHeader
  rw [if_neg (by omega)]
  rw [if_neg (by push_neg; exact hsig)]
  rw [if_neg (not_not_intro hdib)]
  rw [if_neg (by omega)]
  rw [if_neg (by push_neg; exact hgeom)]
  rw [if_neg (not_not_intro hcomp)]
  rcases hoff with ⟨hb, hne⟩ | ⟨hb, hne⟩
  · rw [if_pos hb, if_neg hne]
  · rw [if_neg (by rcases hb with h | h | h <;> omega), if_pos hb, if_neg hne]

/-- C6 witness: a header that is well-formed except that its offset field is
63 instead of the correct 62 is rejected with the bad-offset error. -/
theorem c6_bad_offset_rejected_witness : readHeader badOffFile = .err .badOffset :=
  c6_bad_offset_rejected badOffFile (by decide) (by decide) (by decide) (by decide)
    (by decide) (Or.inl ⟨by decide, by decide⟩)

/-- C7: the claim says every input that ends before a required fixed-size
read completes fails with the unexpected-EOF error and never yields a
partial buffer.  Every strict prefix of the 70-byte `goodFile` indeed fails
exactly that way (first conjunct), but the claim is not universal: the
54-byte header `hdr8x256`, which ends before its required 1024-byte
color-table read, makes Go abort on the slice `tmp[:1024]` of the 768-byte
scratch array before the read is even attempted (second conjunct).  The
third conjunct shows the untruncated `goodFile` decodes fully. -/
theorem c7_truncation_eof :
    (∀ k : Fin 70, decode (goodFile.take k.val) = .err .unexpectedEOF) ∧
    DecodeConfig hdr8x256 = .panic ∧
    decode goodFile =
      .ok (.paletted [(30, 20, 10, 255), (60, 50, 40, 255)] [[1, 0], [0, 1]],
        ⟨.palette [(30, 20, 10, 255), (60, 50, 40, 255)], 2, 2⟩) := by decide

/-- C8: for every 24-bit row and every pixel `k < width`, the decoded pixel
is exactly the three on-disk bytes B,G,R copied unmodified into positions
R,G,B with alpha 0xff appended — identity byte values, only reordered. -/
theorem c8_bgr_identity (w : Nat) (row : List Nat) (k : Nat) (hk : k < w) :
    (decode24Row w row).getD (4 * k) 0 = row.getD (3 * k + 2) 0 ∧
    (decode24Row w row).getD (4 * k + 1) 0 = row.getD (3 * k + 1) 0 ∧
    (decode24Row w row).getD (4 * k + 2) 0 = row.getD (3 * k) 0 ∧
    (decode24Row w row).getD (4 * k + 3) 0 = 0xff := by
  unfold decode24Row
  rw [List.range_eq_range']
  refine ⟨?_, ?_, ?_, ?_⟩
  · have h := flatMap_range_getD
      (fun k => [row.getD (3 * k + 2) 0, row.getD (3 * k + 1) 0, row.getD (3 * k) 0, 0xff])
      4 (fun _ => rfl) 0 (by omega) w 0 k hk
    simpa using h
  · have h := flatMap_range_getD
      (fun k => [row.getD (3 * k + 2) 0, row.getD (3 * k + 1) 0, row.getD (3 * k) 0, 0xff])
      4 (fun _ => rfl) 1 (by omega) w 0 k hk
    simpa using h
  · have h := flatMap_range_getD
      (fun k => [row.getD (3 * k + 2) 0, row.getD (3 * k + 1) 0, row.getD (3 * k) 0, 0xff])
      4 (fun _ => rfl) 2 (by omega) w 0 k hk
    simpa using h
  · have h := flatMap_range_getD
      (fun k => [row.getD (3 * k + 2) 0, row.getD (3 * k + 1) 0, row.getD (3 * k) 0, 0xff])
      4 (fun _ => rfl) 3 (by omega) w 0 k hk
    simpa using h

/-- C8 witness: the identity mapping at a concrete one-pixel row. -/
theorem c8_bgr_identity_witness :
    (decode24Row 1 [10, 20, 30]).getD (4 * 0) 0 = [10, 20, 30].getD (3 * 0 + 2) 0 ∧
    (decode24Row 1 [10, 20, 30]).getD (4 * 0 + 1) 0 = [10, 20, 30].getD (3 * 0 + 1) 0 ∧
    (decode24Row 1 [10, 20, 30]).getD (4 * 0 + 2) 0 = [10, 20, 30].getD (3 * 0) 0 ∧
    (decode24Row 1 [10, 20, 30]).getD (4 * 0 + 3) 0 = 0xff :=
  c8_bgr_identity 1 [10, 20, 30] 0 (by decide)

/-- C9: the claim says `decode32` swaps exactly bytes 0 and 2 of each 4-byte
pixel, leaving bytes 1 and 3 untouched.  The loop actually steps `i` by 1
instead of 4 and dereferences `p[i+2]` for every `i < width*4`, which runs
past the row slice and makes Go abort: the complete 2x1 top-down 32-bit file
`file32b` never decodes, and the swap loop over any 8-byte row aborts. -/
theorem c9_swap_loop_aborts :
    Decode file32b = .panic ∧ swapLoop (List.replicate 8 0) 8 = .panic := by decide

set_option maxRecDepth 20000 in
/-- C10: the claim says all scratch-buffer indexing stays in bounds, in
particular for the 8-bit maximum of 256 palette entries whose color-table
read takes 1024 bytes.  The scratch array holds only 3*256 = 768 bytes, so
on `file8x256` — a well-formed header for an ordinary 256-color image with
its complete color table present — `DecodeConfig` and `Decode` abort on the
slice bound `tmp[:1024]` instead of returning a result or an error. -/
theorem c10_palette_slice_aborts :
    readHeader hdr8x256 = .ok (⟨false, 1, 1, 8, 256⟩, []) ∧
    256 * 4 > tmpLen ∧
    DecodeConfig file8x256 = .panic ∧
    Decode file8x256 = .panic := by decide

end Bmp
